import Mathlib

/-!
Shallow embedding of the browser connection and session lifecycle manager of
gleicon/mcp-chromautomation (internal/browser/manager.go: the legacy `Manager`
and the `EnhancedManager`, internal/server: the two MCP servers), together
with proofs settling the frozen claims about it.

Conventions of the embedding:
* chromedp pipelines are values of `List ChromeAction`; the outcome of each
  action against the live browser is abstracted as an environment
  `ChromeEnv : ChromeAction → Option String` (`none` = the action succeeds,
  `some e` = it fails with message `e`).
* The browserhttp client of the `EnhancedManager` is likewise abstracted as a
  record of per-method outcomes (`EnhEnv`).
* Go's `(result, error)` pairs become `Result × Option String`; a `nil` Go
  error is `none`. Go maps arriving over the wire are association lists.
* All definitions are executable, so counterexamples and witnesses evaluate.
-/

namespace ChromAuto

/-- A browser cookie with the fields the repository reads and writes
(`network.Cookie` / `http.Cookie`: name, value, domain, path, secure,
http-only). -/
structure Cookie where
  name : String
  value : String
  domain : String
  path : String
  secure : Bool
  httpOnly : Bool
deriving DecidableEq, Repr

/-- `browser.SessionData` (manager.go): cookie list, last URL, user agent.
The capture timestamp is omitted; no claim mentions it. -/
structure SessionData where
  cookies : List Cookie
  url : String
  userAgent : String
deriving DecidableEq, Repr

/-- One chromedp action as built by the legacy `Manager`'s methods. -/
inductive ChromeAction where
  | navigate (url : String)
  | waitReady (selector : String)
  | readTitle
  | waitVisible (selector : String)
  | screenshot (selector : String)
  | sendKeys (selector value : String)
  | click (selector : String)
  | setCookie (c : Cookie)
deriving DecidableEq, Repr

/-- Outcome environment for chromedp actions: `none` means the action
succeeds against the live browser, `some e` that it fails with message `e`. -/
def ChromeEnv : Type := ChromeAction → Option String

/-- `chromedp.Run`: executes the actions in order and stops at the first
failing action, whose error it returns (chromedp's documented semantics; the
spec states the same failure rule in its action-executor section). Returns
the attempted actions in order and the first error, if any. -/
def runActions (env : ChromeEnv) : List ChromeAction → List ChromeAction × Option String
  | [] => ([], none)
  | a :: rest =>
    match env a with
    | some e => ([a], some e)
    | none =>
      let out := runActions env rest
      (a :: out.1, out.2)

/-- `browser.NavigateResult`. Absent optional fields are `""`, as Go zero
values. -/
structure NavigateResult where
  url : String
  title : String
  screenshot : String
  success : Bool
  message : String
deriving DecidableEq, Repr

/-- `browser.ClickResult`. -/
structure ClickResult where
  success : Bool
  message : String
  screenshot : String
deriving DecidableEq, Repr

/-- `browser.ExtractTextResult`. -/
structure ExtractTextResult where
  text : List String
  success : Bool
  message : String
deriving DecidableEq, Repr

/-- `browser.FillFormResult`. -/
structure FillFormResult where
  success : Bool
  message : String
  screenshot : String
deriving DecidableEq, Repr

/-- The result map of both RestoreSession implementations: keys success,
message, url, cookies_restored; the last two are absent (`none`) on the
failure path. -/
structure RestoreResult where
  success : Bool
  message : String
  url : Option String
  cookiesRestored : Option Nat
deriving DecidableEq, Repr

/-- Per-call page data the legacy manager reads besides action outcomes:
the page title chromedp captures and the base64 screenshot payload (abstracted
as the already-encoded string; `screenshotLen` is the raw byte count tested
against zero). -/
structure PageEnv where
  act : ChromeEnv
  title : String
  screenshotB64 : String
  screenshotLen : Nat

namespace Manager

/-- The action list `Manager.Navigate` builds: navigate, wait for body, read
title, then the optional wait-for selector, then the optional screenshot. -/
def navigateActions (url waitFor : String) (shot : Bool) : List ChromeAction :=
  [ChromeAction.navigate url, ChromeAction.waitReady "body", ChromeAction.readTitle]
    ++ (if waitFor ≠ "" then [ChromeAction.waitVisible waitFor] else [])
    ++ (if shot then [ChromeAction.screenshot "body"] else [])

/-- `Manager.Navigate` (manager.go): runs the pipeline; on any action error it
returns success=false with the embedded message and a nil Go error; on
success it fills title and the screenshot when captured bytes are non-empty.
The detached browserhttp confirmation ping mutates nothing and is omitted. -/
def Navigate (env : PageEnv) (url waitFor : String) (shot : Bool) :
    NavigateResult × Option String :=
  match (runActions env.act (navigateActions url waitFor shot)).2 with
  | some e =>
      ({ url := url, title := "", screenshot := "", success := false,
         message := "Navigation failed: " ++ e }, none)
  | none =>
      ({ url := url, title := env.title,
         screenshot := if shot && decide (0 < env.screenshotLen) then env.screenshotB64 else "",
         success := true,
         message := "Navigation successful using existing Chrome session" }, none)

/-- `Manager.Click`: click, plus a screenshot action when requested; failure
of the run yields success=false and a nil Go error. -/
def Click (env : PageEnv) (selector : String) (shot : Bool) :
    ClickResult × Option String :=
  let actions := [ChromeAction.click selector]
      ++ (if shot then [ChromeAction.screenshot "body"] else [])
  match (runActions env.act actions).2 with
  | some e =>
      ({ success := false, message := "Click failed: " ++ e, screenshot := "" }, none)
  | none =>
      ({ success := true, message := "Click successful",
         screenshot := if shot && decide (0 < env.screenshotLen) then env.screenshotB64 else "" }, none)

/-- The fixed ordered submit-control selector list of `Manager.FillForm`. -/
def submitSelectors : List String :=
  ["input[type='submit']", "button[type='submit']", "form button",
   ".submit-button", "[role='button'][type='submit']"]

/-- The action list `Manager.FillForm` builds: SendKeys per field; when
submit is requested, the Go loop over `submitSelectors` breaks after its
first iteration, so exactly one Click on the head selector is appended. -/
def fillFormActions (fields : List (String × String)) (submit : Bool) :
    List ChromeAction :=
  (fields.map fun kv => ChromeAction.sendKeys kv.1 kv.2)
    ++ (if submit then (submitSelectors.take 1).map ChromeAction.click else [])

/-- `Manager.FillForm`: one chromedp.Run over `fillFormActions`; any failure
(including the submit click) yields success=false; Go error is always nil. -/
def FillForm (env : ChromeEnv) (fields : List (String × String)) (submit : Bool) :
    FillFormResult × Option String :=
  match (runActions env (fillFormActions fields submit)).2 with
  | some e =>
      ({ success := false, message := "Form filling failed: " ++ e, screenshot := "" }, none)
  | none =>
      ({ success := true,
         message := "Form filled successfully" ++ (if submit then " and submitted" else ""),
         screenshot := "" }, none)

/-- The action list `Manager.RestoreSession` builds: navigate to the saved
URL when non-empty, then one SetCookie per cookie, in the record's order. -/
def restoreActions (sd : SessionData) : List ChromeAction :=
  (if sd.url ≠ "" then [ChromeAction.navigate sd.url] else [])
    ++ sd.cookies.map ChromeAction.setCookie

/-- `Manager.RestoreSession`: one chromedp.Run over `restoreActions`; on any
action failure the result map has success=false and a message only; on
success it reports the url and cookies_restored = the full cookie count. The
Go error is always nil. -/
def RestoreSession (env : ChromeEnv) (sd : SessionData) :
    RestoreResult × Option String :=
  match (runActions env (restoreActions sd)).2 with
  | some e =>
      ({ success := false, message := "Session restore failed: " ++ e,
         url := none, cookiesRestored := none }, none)
  | none =>
      ({ success := true, message := "Session restored successfully",
         url := some sd.url, cookiesRestored := some sd.cookies.length }, none)

end Manager

/-! ## Attach resolver and Init (legacy manager) -/

/-- The fixed ordered candidate debug ports of `connectToExistingChrome`. -/
def candidatePorts : List Nat := [9222, 9223, 9224]

/-- A liveness configuration: for each candidate port, whether the metadata
probe (`isDebugPortAvailable`) answers 200, and whether the verification call
(Evaluate of the current location under its 5-second timeout) succeeds. -/
structure ProbeCfg where
  live : Nat → Bool
  verify : Nat → Bool

/-- `Manager.connectToExistingChrome`: walk `candidatePorts` in order and
return the first port that both probes live and verifies; live candidates
failing verification are cleaned up and skipped. -/
def connectToExistingChrome (cfg : ProbeCfg) : Option Nat :=
  candidatePorts.find? fun p => cfg.live p && cfg.verify p

/-- The literal remediation command embedded in Init's failure message. -/
def remediation : String := "google-chrome --remote-debugging-port=9222"

/-- The hardcoded fallback endpoint of `Manager.Init`. -/
def defaultDebugEndpoint : String := "http://localhost:9222"

/-- The endpoint string `connectToExistingChrome` builds for a port. -/
def endpointOf (p : Nat) : String := "http://localhost:" ++ toString p

/-- Configuration for `Manager.Init` beyond the probe: the outcome of
`testConnection` given the attachment (`none` = the fallback allocator), the
underlying error text of a failed test, and whether the screenshots
directory could be created. A browserhttp-init failure is only logged by the
source and does not change the outcome, so it is not represented. -/
structure InitCfg where
  probe : ProbeCfg
  testOk : Option Nat → Bool
  testErr : String
  mkdirOk : Bool

/-- `Manager.Init`: attach via `connectToExistingChrome`, else fall back to
the single hardcoded default endpoint; then test the connection, failing with
the remediation message; then create the screenshots directory. Returns the
endpoint the manager connected (or tried to connect) to, and the outcome. -/
def Manager.Init (cfg : InitCfg) : String × Except String Unit :=
  let attached := connectToExistingChrome cfg.probe
  let endpoint :=
    match attached with
    | some p => endpointOf p
    | none => defaultDebugEndpoint
  if cfg.testOk attached then
    if cfg.mkdirOk then (endpoint, Except.ok ())
    else (endpoint, Except.error "failed to create screenshots directory")
  else
    (endpoint, Except.error
      ("failed to connect to Chrome: " ++ cfg.testErr
        ++ "\n\n💡 Make sure Chrome is running with debugging enabled:\n   "
        ++ remediation))

/-! ## DOM model and legacy ExtractText -/

/-- One DOM element: its tag and its textContent. Selectors are modelled as
tag-name selectors, the form the claims exercise. -/
structure DomElement where
  tag : String
  textContent : String
deriving DecidableEq, Repr

/-- The current page as its elements in document order. -/
def Page : Type := List DomElement

/-- `document.querySelectorAll(selector)`: all matching elements, in
document order. -/
def querySelectorAll (page : Page) (selector : String) : List DomElement :=
  page.filter fun e => e.tag == selector

/-- The trim of JavaScript's String.prototype.trim: drop whitespace from
both ends. -/
def jsTrim (s : String) : String :=
  String.mk (((s.data.dropWhile Char.isWhitespace).reverse.dropWhile
    Char.isWhitespace).reverse)

/-- The value of the JavaScript expression ExtractText evaluates:
`Array.from(document.querySelectorAll(sel)).map(el strip to textContent.trim())`. -/
def extractScriptValue (page : Page) (selector : String) : List String :=
  (querySelectorAll page selector).map fun e => jsTrim e.textContent

/-- `Manager.ExtractText`: one Evaluate of the extraction script; `evalErr`
is the outcome of that chromedp run (`none` = success). Go error is nil in
both paths. -/
def Manager.ExtractText (page : Page) (evalErr : Option String) (selector : String) :
    ExtractTextResult × Option String :=
  match evalErr with
  | some e =>
      ({ text := [], success := false, message := "Text extraction failed: " ++ e }, none)
  | none =>
      ({ text := extractScriptValue page selector, success := true, message := "" }, none)

/-! ## Enhanced manager (browserhttp-backed) -/

/-- Per-call outcomes of the browserhttp client methods the EnhancedManager
invokes. `none` = the client call succeeds. -/
structure EnhEnv where
  getErr : String → Option String
  titleHeader : String
  waitErr : String → Option String
  clickErr : String → Option String
  typeErr : String → String → Option String
  extract : String → Except String (List String)

namespace EnhancedManager

/-- `EnhancedManager.Navigate`: one client.Get; on success the optional
wait-for and screenshot annotations; Go error always nil. -/
def Navigate (env : EnhEnv) (url waitFor : String) (shot : Bool) :
    NavigateResult × Option String :=
  match env.getErr url with
  | some e =>
      ({ url := url, title := "", screenshot := "", success := false,
         message := "Enhanced navigation failed: " ++ e }, none)
  | none =>
      let msg := "Enhanced navigation successful"
      let msg :=
        if waitFor ≠ "" then
          match env.waitErr waitFor with
          | some e => msg ++ " (wait failed: " ++ e ++ ")"
          | none => msg ++ " (element found)"
        else msg
      ({ url := url, title := env.titleHeader,
         screenshot := if shot then "screenshot_captured_by_browserhttp" else "",
         success := true, message := msg }, none)

/-- `EnhancedManager.Click`: one client.Click; Go error always nil. -/
def Click (env : EnhEnv) (selector : String) (shot : Bool) :
    ClickResult × Option String :=
  match env.clickErr selector with
  | some e =>
      ({ success := false, message := "Enhanced click failed: " ++ e, screenshot := "" }, none)
  | none =>
      ({ success := true, message := "Enhanced click successful",
         screenshot := if shot then "screenshot_after_click" else "" }, none)

/-- `EnhancedManager.ExtractText`: one client.ExtractText; Go error nil. -/
def ExtractText (env : EnhEnv) (selector : String) :
    ExtractTextResult × Option String :=
  match env.extract selector with
  | Except.error e =>
      ({ text := [], success := false,
         message := "Enhanced text extraction failed: " ++ e }, none)
  | Except.ok ts =>
      ({ text := ts, success := true,
         message := "Extracted " ++ toString ts.length ++ " text elements" }, none)

/-- The first field of the list whose client.Type call fails, with its
error, mirroring the loop that returns on the first failure. -/
def firstTypeError (env : EnhEnv) : List (String × String) → Option (String × String)
  | [] => none
  | (sel, v) :: rest =>
    match env.typeErr sel v with
    | some e => some (sel, e)
    | none => firstTypeError env rest

/-- The fixed ordered submit-control selector list of
`EnhancedManager.FillForm` (one entry shorter than the legacy list). -/
def enhSubmitSelectors : List String :=
  ["input[type='submit']", "button[type='submit']", "form button", ".submit-button"]

/-- `EnhancedManager.FillForm`: client.Type per field, returning failure at
the first failing field; on submit it clicks the first selector whose Click
succeeds, else annotates the soft success with "(submit button not found)".
Go error always nil. -/
def FillForm (env : EnhEnv) (fields : List (String × String)) (submit : Bool) :
    FillFormResult × Option String :=
  match firstTypeError env fields with
  | some se =>
      ({ success := false,
         message := "Enhanced form filling failed at " ++ se.1 ++ ": " ++ se.2,
         screenshot := "" }, none)
  | none =>
      let msg := "Enhanced form filled successfully"
      if submit then
        match enhSubmitSelectors.find? (fun s => (env.clickErr s).isNone) with
        | some _ =>
            ({ success := true, message := msg ++ " and submitted", screenshot := "" }, none)
        | none =>
            ({ success := true, message := msg ++ " (submit button not found)",
               screenshot := "" }, none)
      else ({ success := true, message := msg, screenshot := "" }, none)

end EnhancedManager

/-! ## Session capture and restore over a browser state (round-trip claims) -/

/-- The live browsing context as the claims observe it: current URL and the
cookie jar. -/
structure BrowserState where
  url : String
  cookies : List Cookie
deriving DecidableEq, Repr

/-- The conversion both EnhancedManager session methods apply to a cookie:
keep Name, Value, Path; every other field arrives as a Go zero value
(manager.go builds `network.Cookie` and `http.Cookie` literals with exactly
those three fields). -/
def stripCookie (c : Cookie) : Cookie :=
  { name := c.name, value := c.value, domain := "", path := c.path,
    secure := false, httpOnly := false }

/-- Modelled from the spec: the browserhttp client's GetCookies returns every
cookie visible to the current browsing context (spec: "Capture reads all
cookies visible to the current browsing context"); the library itself is an
external dependency, not part of this repository. -/
def clientGetCookies (st : BrowserState) : List Cookie := st.cookies

/-- `EnhancedManager.GetSessionData`: converts each cookie keeping only
Name, Value, Path; the URL is read via an Evaluate of the current
location. -/
def EnhancedManager.GetSessionData (st : BrowserState) : SessionData :=
  { cookies := (clientGetCookies st).map stripCookie
    url := st.url
    userAgent := "" }

/-- Modelled from the spec: setting one cookie in the jar ("set each cookie
individually") replaces the cookie of the same name when present, else
appends; the library call itself is external to the repository. -/
def setCookieInJar (jar : List Cookie) (c : Cookie) : List Cookie :=
  if jar.any fun j => j.name == c.name then
    jar.map fun j => if j.name == c.name then c else j
  else jar ++ [c]

/-- Modelled from the spec: the browserhttp client's SetCookies writes each
given cookie into the jar in order. -/
def clientSetCookies (st : BrowserState) (cs : List Cookie) : BrowserState :=
  { st with cookies := cs.foldl setCookieInJar st.cookies }

/-- Observable restore steps of the enhanced restore path, in execution
order. -/
inductive RestoreEvent where
  | setCookies (cs : List Cookie)
  | navigate (url : String)
deriving DecidableEq, Repr

/-- Outcomes of the two client calls the enhanced restore makes. -/
structure EnhRestoreEnv where
  setCookiesErr : Option String
  navErr : Option String

/-- The http cookies `EnhancedManager.RestoreSession` rebuilds from the
record: Name, Value, Path only. -/
def EnhancedManager.restoreHttpCookies (sd : SessionData) : List Cookie :=
  sd.cookies.map stripCookie

/-- `EnhancedManager.RestoreSession`: converts the record's cookies, calls
SetCookies with them FIRST, and only then navigates to the record's URL when
non-empty. Returns the Go-facing pair (result map, nil error), the resulting
browser state, and the client calls in execution order. -/
def EnhancedManager.RestoreSession (env : EnhRestoreEnv) (st : BrowserState)
    (sd : SessionData) :
    (RestoreResult × Option String) × BrowserState × List RestoreEvent :=
  let hcs := EnhancedManager.restoreHttpCookies sd
  match env.setCookiesErr with
  | some e =>
      ((⟨false, "Enhanced session restore failed: " ++ e, none, none⟩, none),
        st, [RestoreEvent.setCookies hcs])
  | none =>
    let st1 := clientSetCookies st hcs
    if sd.url ≠ "" then
      match env.navErr with
      | some e =>
          ((⟨false, "Could not navigate to saved URL: " ++ e, none, none⟩, none),
            st1, [RestoreEvent.setCookies hcs, RestoreEvent.navigate sd.url])
      | none =>
          ((⟨true, "Enhanced session restored successfully", some sd.url, some hcs.length⟩, none),
            { st1 with url := sd.url },
            [RestoreEvent.setCookies hcs, RestoreEvent.navigate sd.url])
    else
      ((⟨true, "Enhanced session restored successfully", some sd.url, some hcs.length⟩, none),
        st1, [RestoreEvent.setCookies hcs])

/-! ## Server layer: backend selection and the fill_form handlers -/

/-- The two executor backends of the enhanced MCP server. -/
inductive Backend where
  | rich
  | legacy
deriving DecidableEq, Repr

/-- Init outcomes for `EnhancedMCPChromeServer.Start`. -/
structure StartCfg where
  storageOk : Bool
  richOk : Bool
  legacyOk : Bool

/-- Which backends Start managed to initialize. -/
structure ServerState where
  richInited : Bool
  legacyInited : Bool
deriving DecidableEq, Repr

/-- `EnhancedMCPChromeServer.Start` up to serving: storage init; rich browser
init; on its failure, legacy browser init; error when both fail. -/
def EnhancedServer.start (cfg : StartCfg) : Except String ServerState :=
  if cfg.storageOk = false then Except.error "failed to initialize storage"
  else if cfg.richOk then Except.ok { richInited := true, legacyInited := false }
  else if cfg.legacyOk then Except.ok { richInited := false, legacyInited := true }
  else Except.error "failed to initialize browser (both enhanced and legacy)"

/-- Arguments of the chrome_navigate tool after parsing. -/
structure NavRequest where
  url : String
  waitFor : String
  screenshot : Bool
  trackPerformance : Bool

/-- A tool call outcome: the error result of a failed parameter check, or a
serialized payload. -/
inductive ToolOutcome (α : Type) where
  | err (msg : String)
  | ok (payload : α)
deriving DecidableEq, Repr

/-- `handleEnhancedNavigate`: parameter check, then a Navigate on the server's
`browser` field — always the rich backend; the `legacyBrowser` field is
referenced by no handler. Returns the outcome and the backend methods
invoked, in order. `perf` is the rendered load_complete metric of
GetPerformanceMetrics, when that call succeeds. -/
def handleEnhancedNavigate (sstate : ServerState) (env : EnhEnv)
    (perf : Except String String) (req : NavRequest) :
    ToolOutcome NavigateResult × List (Backend × String) :=
  if req.url = "" then (ToolOutcome.err "URL parameter is required", [])
  else
    let nav := (EnhancedManager.Navigate env req.url req.waitFor req.screenshot).1
    if req.trackPerformance then
      let nav :=
        match perf with
        | Except.ok load => { nav with message := nav.message ++ " (Load time: " ++ load ++ ")" }
        | Except.error _ => nav
      (ToolOutcome.ok nav,
        [(Backend.rich, "Navigate"), (Backend.rich, "GetPerformanceMetrics")])
    else
      (ToolOutcome.ok nav, [(Backend.rich, "Navigate")])

/-- A JSON value as the fields map of a fill_form request carries it. -/
inductive JsonValue where
  | str (s : String)
  | num (n : Int)
  | boolean (b : Bool)
  | null
deriving DecidableEq, Repr

/-- The Go type assertion `value.(string)`. -/
def JsonValue.asString : JsonValue → Option String
  | JsonValue.str s => some s
  | _ => none

/-- The string-valued entries both fill_form handlers keep; every non-string
value is silently dropped. -/
def stringFields (m : List (String × JsonValue)) : List (String × String) :=
  m.filterMap fun kv => (kv.2.asString).map fun s => (kv.1, s)

/-- Outcome of a fill_form handler: the required-parameter error, or the
browser FillForm invocation with the fields that were actually passed. -/
inductive FillFormOutcome where
  | missingFields
  | invoked (fields : List (String × String)) (r : FillFormResult)
deriving DecidableEq, Repr

/-- `MCPChromeServer.handleChromeFillForm`: rejects an empty fields map, then
invokes the legacy FillForm with only the string-valued entries. -/
def handleChromeFillForm (env : ChromeEnv) (fieldsMap : List (String × JsonValue))
    (submit : Bool) : FillFormOutcome :=
  if fieldsMap.length = 0 then FillFormOutcome.missingFields
  else
    let fields := stringFields fieldsMap
    FillFormOutcome.invoked fields (Manager.FillForm env fields submit).1

/-- `EnhancedMCPChromeServer.handleEnhancedFillForm`: same check and
filtering, invoking the enhanced FillForm; with validate and submit set the
message gains a validation annotation. -/
def handleEnhancedFillForm (env : EnhEnv) (fieldsMap : List (String × JsonValue))
    (submit validate : Bool) : FillFormOutcome :=
  if fieldsMap.length = 0 then FillFormOutcome.missingFields
  else
    let fields := stringFields fieldsMap
    let r := (EnhancedManager.FillForm env fields submit).1
    FillFormOutcome.invoked fields
      (if validate && submit then
        { r with message := r.message ++ " (validated before submission)" }
      else r)

/-! ## Order predicates on restore plans and traces -/

/-- Whether a chromedp action is a navigation. -/
def isNavAct : ChromeAction → Bool
  | ChromeAction.navigate _ => true
  | _ => false

/-- The plan is a (possibly empty) block of navigations followed by no
further navigation: every navigate precedes every other action. -/
def navFirst (l : List ChromeAction) : Bool :=
  (l.dropWhile isNavAct).all fun a => !(isNavAct a)

/-- Whether an enhanced restore event is a navigation. -/
def isNavEvent : RestoreEvent → Bool
  | RestoreEvent.navigate _ => true
  | _ => false

/-- The trace starts with its navigations: every navigate precedes every
other event. -/
def navEventFirst (l : List RestoreEvent) : Bool :=
  (l.dropWhile isNavEvent).all fun a => !(isNavEvent a)

/-! ## Concrete inputs used by counterexamples and witnesses -/

def cookieA : Cookie :=
  { name := "a", value := "1", domain := "example.com", path := "/",
    secure := false, httpOnly := false }

def cookieB : Cookie :=
  { name := "b", value := "2", domain := "example.com", path := "/",
    secure := false, httpOnly := false }

/-- A two-cookie record whose restore exercises the claimed best-effort
semantics. -/
def sdTwoCookies : SessionData :=
  { cookies := [cookieA, cookieB], url := "https://example.com", userAgent := "" }

/-- An environment in which setting the first cookie fails and every other
action (including setting the second cookie) succeeds. -/
def envFailCookieA : ChromeEnv := fun a =>
  if a = ChromeAction.setCookie cookieA then some "could not set cookie" else none

/-- A probe configuration with two simultaneously live, verified
candidates. -/
def cfgTwoLive : ProbeCfg :=
  { live := fun p => p == 9223 || p == 9224, verify := fun _ => true }

/-- An init configuration where no candidate port is live and the fallback
connection test fails too. -/
def cfgAllDead : InitCfg :=
  { probe := { live := fun _ => false, verify := fun _ => false }
    testOk := fun _ => false
    testErr := "context deadline exceeded"
    mkdirOk := true }

/-- A one-field form. -/
def fieldsOne : List (String × String) := [("#name", "Alice")]

/-- An action environment where every SendKeys succeeds and every Click
fails: all form fields fill, but no submit-control selector matches a
clickable element. -/
def envNoSubmitControl : ChromeEnv := fun a =>
  match a with
  | ChromeAction.click _ => some "no element found"
  | _ => none

/-- A browserhttp environment where typing always succeeds and clicking
always fails (no submit control matches). -/
def enhEnvNoSubmit : EnhEnv :=
  { getErr := fun _ => none, titleHeader := "", waitErr := fun _ => none,
    clickErr := fun _ => some "no element found",
    typeErr := fun _ _ => none, extract := fun _ => Except.ok [] }

/-- An all-succeeding action environment. -/
def envAllOk : ChromeEnv := fun _ => none

/-- An all-succeeding browserhttp environment. -/
def enhEnvAllOk : EnhEnv :=
  { getErr := fun _ => none, titleHeader := "Example Domain",
    waitErr := fun _ => none, clickErr := fun _ => none,
    typeErr := fun _ _ => none, extract := fun _ => Except.ok [] }

/-- The two-heading page of the extract_text scenario, with untrimmed
text content. -/
def twoHeadingPage : Page :=
  [{ tag := "h1", textContent := "  First Heading " },
   { tag := "p", textContent := "body text" },
   { tag := "h1", textContent := "\tSecond Heading\n" }]

/-- A one-cookie record with a non-empty URL. -/
def sdOneCookie : SessionData :=
  { cookies := [cookieA], url := "https://example.com/home", userAgent := "" }

/-- An enhanced restore environment where both client calls succeed. -/
def envRestoreOk : EnhRestoreEnv := { setCookiesErr := none, navErr := none }

/-- A blank browser state. -/
def blankState : BrowserState := { url := "about:blank", cookies := [] }

/-- A state holding one secure, http-only, domain-scoped cookie. -/
def secureState : BrowserState :=
  { url := "https://example.com/login"
    cookies := [{ name := "sid", value := "v1", domain := "example.com",
                  path := "/", secure := true, httpOnly := true }] }

/-- A navigate request with plain arguments. -/
def reqExample : NavRequest :=
  { url := "https://example.com", waitFor := "", screenshot := false,
    trackPerformance := false }

/-- A fields map that is non-empty but carries no string value. -/
def nonStringFieldsMap : List (String × JsonValue) :=
  [("username", JsonValue.num 42)]

/-! ## General lemmas about the action runner and list search -/

/-- The attempted actions of a run form an initial segment of the planned
pipeline. -/
theorem runActions_attempted_isPrefix (env : ChromeEnv) (l : List ChromeAction) :
    (runActions env l).1 <+: l := by
  induction l with
  | nil => simp [runActions]
  | cons a rest ih =>
    cases h : env a with
    | some e => simp [runActions, h]
    | none =>
      simp only [runActions, h]
      exact (List.prefix_cons_inj a).mpr ih

/-- A run ends without error exactly when every planned action succeeds. -/
theorem runActions_err_eq_none (env : ChromeEnv) (l : List ChromeAction) :
    (runActions env l).2 = none ↔ ∀ a ∈ l, env a = none := by
  induction l with
  | nil => simp [runActions]
  | cons a rest ih =>
    cases h : env a with
    | some e => simp [runActions, h]
    | none => simp [runActions, h, ih]

/-- At most one failing action is ever attempted: the run stops at the first
failure. -/
theorem runActions_attempted_failures_le_one (env : ChromeEnv) (l : List ChromeAction) :
    ((runActions env l).1.countP fun a => (env a).isSome) ≤ 1 := by
  induction l with
  | nil => simp [runActions]
  | cons a rest ih =>
    cases h : env a with
    | some e => simp [runActions, h, List.countP_cons]
    | none => simpa [runActions, h, List.countP_cons] using ih

/-- Running an all-succeeding block followed by a tail attempts the whole
block and continues into the tail. -/
theorem runActions_append_ok (env : ChromeEnv) (l₁ l₂ : List ChromeAction)
    (h : ∀ a ∈ l₁, env a = none) :
    runActions env (l₁ ++ l₂) = (l₁ ++ (runActions env l₂).1, (runActions env l₂).2) := by
  induction l₁ with
  | nil => simp
  | cons a t ih =>
    have ha : env a = none := h a (by simp)
    have ht : ∀ x ∈ t, env x = none := fun x hx => h x (by simp [hx])
    simp [runActions, ha, ih ht]

/-- A successful find? splits the list at the first element satisfying the
test. -/
theorem find?_split {α : Type} (f : α → Bool) (l : List α) (b : α)
    (h : l.find? f = some b) :
    f b = true ∧ ∃ l₁ l₂, l = l₁ ++ b :: l₂ ∧ ∀ a ∈ l₁, f a = false := by
  induction l with
  | nil => simp at h
  | cons a t ih =>
    by_cases hfa : f a = true
    · rw [List.find?_cons_of_pos _ hfa] at h
      obtain rfl : a = b := by injection h
      exact ⟨hfa, [], t, rfl, by simp⟩
    · rw [List.find?_cons_of_neg _ hfa] at h
      obtain ⟨h1, l₁, l₂, rfl, hall⟩ := ih h
      refine ⟨h1, a :: l₁, l₂, rfl, ?_⟩
      intro x hx
      rcases List.mem_cons.mp hx with rfl | hx
      · exact Bool.eq_false_iff.mpr hfa
      · exact hall x hx

/-- find? only depends on the test's values on the list's members. -/
theorem find?_congr_mem {α : Type} {f g : α → Bool} (l : List α)
    (h : ∀ x ∈ l, f x = g x) : l.find? f = l.find? g := by
  induction l with
  | nil => rfl
  | cons a t ih =>
    have ha := h a (by simp)
    by_cases hfa : f a = true
    · rw [List.find?_cons_of_pos _ hfa, List.find?_cons_of_pos _ (ha ▸ hfa)]
    · rw [List.find?_cons_of_neg _ hfa, List.find?_cons_of_neg _ (ha ▸ hfa)]
      exact ih fun x hx => h x (by simp [hx])

/-! ## Claim C1: per-cookie best-effort restore vs. all-or-nothing -/

/-- C1 counterexample: restoring `sdTwoCookies` under `envFailCookieA`, the
first cookie's set fails while the second would succeed; the claim predicts
that the second cookie is still set and that cookies_restored = 1, but the
code aborts the run (the second SetCookie is never attempted) and returns a
failed result carrying no cookies_restored count at all. -/
theorem restore_best_effort_counterexample :
    (Manager.RestoreSession envFailCookieA sdTwoCookies).1.cookiesRestored = none ∧
    (Manager.RestoreSession envFailCookieA sdTwoCookies).1.success = false ∧
    envFailCookieA (ChromeAction.setCookie cookieB) = none ∧
    ChromeAction.setCookie cookieB ∉
      (runActions envFailCookieA (Manager.restoreActions sdTwoCookies)).1 := by
  decide

/-- C1 (amended): a failing action aborts the remaining restore actions (the
attempted actions form an initial segment of the plan containing at most one
failure), the result then has success=false with no cookies_restored field,
and cookies_restored is reported only when every action succeeds, in which
case it equals the full cookie count; the enhanced restore likewise reports
either no count or the full count, never a strict partial one. -/
theorem restore_all_or_nothing (env : ChromeEnv) (renv : EnhRestoreEnv)
    (st : BrowserState) (sd : SessionData) :
    ((Manager.RestoreSession env sd).1.success = true
        ↔ ∀ a ∈ Manager.restoreActions sd, env a = none) ∧
    ((Manager.RestoreSession env sd).1.cookiesRestored =
      if ∀ a ∈ Manager.restoreActions sd, env a = none
      then some sd.cookies.length else none) ∧
    (runActions env (Manager.restoreActions sd)).1 <+: Manager.restoreActions sd ∧
    ((runActions env (Manager.restoreActions sd)).1.countP fun a => (env a).isSome) ≤ 1 ∧
    ((EnhancedManager.RestoreSession renv st sd).1.1.cookiesRestored = none ∨
      (EnhancedManager.RestoreSession renv st sd).1.1.cookiesRestored =
        some sd.cookies.length) := by
  have key := runActions_err_eq_none env (Manager.restoreActions sd)
  refine ⟨?_, ?_, runActions_attempted_isPrefix env _,
    runActions_attempted_failures_le_one env _, ?_⟩
  · cases h : (runActions env (Manager.restoreActions sd)).2 with
    | none => simpa [Manager.RestoreSession, h] using key.mp h
    | some e =>
      simp only [Manager.RestoreSession, h]
      constructor
      · intro hfalse
        cases hfalse
      · intro hall
        rw [key.mpr hall] at h
        cases h
  · cases h : (runActions env (Manager.restoreActions sd)).2 with
    | none =>
      have hall := key.mp h
      simp [Manager.RestoreSession, h, if_pos hall]
    | some e =>
      have hnot : ¬ ∀ a ∈ Manager.restoreActions sd, env a = none := by
        intro hall
        rw [key.mpr hall] at h
        cases h
      simp [Manager.RestoreSession, h, if_neg hnot]
  · cases hsc : renv.setCookiesErr with
    | some e => simp [EnhancedManager.RestoreSession, hsc]
    | none =>
      by_cases hurl : sd.url ≠ ""
      · cases hnav : renv.navErr with
        | some e => simp [EnhancedManager.RestoreSession, hsc, hurl, hnav]
        | none =>
          right
          simp [EnhancedManager.RestoreSession, hsc, hurl, hnav,
            EnhancedManager.restoreHttpCookies]
      · right
        simp [EnhancedManager.RestoreSession, hsc, hurl,
          EnhancedManager.restoreHttpCookies]

/-! ## Claim C2: the attach resolver picks the first live-and-verified port -/

/-- C2: whenever the resolver attaches to a port, that port is live and
verified, every earlier candidate in the fixed order failed the combined
test, and any configuration agreeing on the candidate ports resolves to the
same port (determinism across repeated runs). -/
theorem connect_picks_first_live_verified (cfg : ProbeCfg) (p : Nat)
    (h : connectToExistingChrome cfg = some p) :
    (cfg.live p && cfg.verify p) = true ∧
    (∃ pre post, candidatePorts = pre ++ p :: post ∧
        ∀ q ∈ pre, (cfg.live q && cfg.verify q) = false) ∧
    (∀ cfg2 : ProbeCfg,
        (∀ q ∈ candidatePorts, cfg2.live q = cfg.live q ∧ cfg2.verify q = cfg.verify q) →
        connectToExistingChrome cfg2 = some p) := by
  obtain ⟨h1, l₁, l₂, heq, hall⟩ := find?_split _ _ _ h
  refine ⟨h1, ⟨l₁, l₂, heq, hall⟩, ?_⟩
  intro cfg2 hsame
  have hcongr : connectToExistingChrome cfg2 = connectToExistingChrome cfg := by
    unfold connectToExistingChrome
    exact find?_congr_mem _ fun x hx => by rw [(hsame x hx).1, (hsame x hx).2]
  rw [hcongr, h]

/-- Witness for C2: with 9223 and 9224 both live and verified, the resolver
deterministically picks 9223, the first of the two in priority order. -/
theorem connect_picks_first_witness :
    (cfgTwoLive.live 9223 && cfgTwoLive.verify 9223) = true ∧
    (∃ pre post, candidatePorts = pre ++ 9223 :: post ∧
        ∀ q ∈ pre, (cfgTwoLive.live q && cfgTwoLive.verify q) = false) ∧
    (∀ cfg2 : ProbeCfg,
        (∀ q ∈ candidatePorts,
            cfg2.live q = cfgTwoLive.live q ∧ cfg2.verify q = cfgTwoLive.verify q) →
        connectToExistingChrome cfg2 = some 9223) :=
  connect_picks_first_live_verified cfgTwoLive 9223 (by decide)

/-! ## Claim C3: fallback endpoint and the remediation message -/

/-- C3: when no candidate port is live-and-verified, Init falls back to the
hardcoded default endpoint, and when the connection test against it fails
too, Init returns an error whose message contains (indeed ends with) the
literal remediation command. -/
theorem init_fallback_remediation (cfg : InitCfg)
    (hdead : ∀ q ∈ candidatePorts, (cfg.probe.live q && cfg.probe.verify q) = false)
    (htest : cfg.testOk none = false) :
    (Manager.Init cfg).1 = defaultDebugEndpoint ∧
    ∃ e, (Manager.Init cfg).2 = Except.error e ∧ ∃ pre, e = pre ++ remediation := by
  have hnone : connectToExistingChrome cfg.probe = none := by
    rw [connectToExistingChrome, List.find?_eq_none]
    intro x hx
    simp [hdead x hx]
  refine ⟨by simp [Manager.Init, hnone, htest], ?_⟩
  have hmsg : (Manager.Init cfg).2 = Except.error
      ("failed to connect to Chrome: " ++ cfg.testErr
        ++ "\n\n💡 Make sure Chrome is running with debugging enabled:\n   "
        ++ remediation) := by
    simp [Manager.Init, hnone, htest]
  exact ⟨_, hmsg,
    "failed to connect to Chrome: " ++ cfg.testErr
      ++ "\n\n💡 Make sure Chrome is running with debugging enabled:\n   ",
    by rfl⟩

/-- Witness for C3: all candidate ports dead and the fallback test failing,
Init targets the default endpoint and errors with the remediation command in
the message. -/
theorem init_fallback_remediation_witness :
    (Manager.Init cfgAllDead).1 = defaultDebugEndpoint ∧
    ∃ e, (Manager.Init cfgAllDead).2 = Except.error e ∧ ∃ pre, e = pre ++ remediation :=
  init_fallback_remediation cfgAllDead (by intro q _; rfl) rfl

/-! ## Claim C4: structured results, nil Go error for in-domain failures -/

/-- C4: every primitive capability method (Navigate, Click, ExtractText,
FillForm, RestoreSession, on both managers) pairs its result with a nil Go
error on every input; an in-domain failure is reported as success=false with
a message embedding the underlying error text. Totality of these functions
models the absence of panics. -/
theorem capability_error_channel (penv : PageEnv) (cenv : ChromeEnv) (eenv : EnhEnv)
    (renv : EnhRestoreEnv) (page : Page) (evalErr : Option String) (st : BrowserState)
    (url waitFor selector : String) (shot submit : Bool)
    (fields : List (String × String)) (sd : SessionData) :
    (Manager.Navigate penv url waitFor shot).2 = none ∧
    (Manager.Click penv selector shot).2 = none ∧
    (Manager.ExtractText page evalErr selector).2 = none ∧
    (Manager.FillForm cenv fields submit).2 = none ∧
    (Manager.RestoreSession cenv sd).2 = none ∧
    (EnhancedManager.Navigate eenv url waitFor shot).2 = none ∧
    (EnhancedManager.Click eenv selector shot).2 = none ∧
    (EnhancedManager.ExtractText eenv selector).2 = none ∧
    (EnhancedManager.FillForm eenv fields submit).2 = none ∧
    (EnhancedManager.RestoreSession renv st sd).1.2 = none ∧
    ((Manager.Navigate penv url waitFor shot).1.success = false →
      ∃ e, (Manager.Navigate penv url waitFor shot).1.message =
        "Navigation failed: " ++ e) ∧
    ((Manager.Click penv selector shot).1.success = false →
      ∃ e, (Manager.Click penv selector shot).1.message = "Click failed: " ++ e) ∧
    ((Manager.FillForm cenv fields submit).1.success = false →
      ∃ e, (Manager.FillForm cenv fields submit).1.message =
        "Form filling failed: " ++ e) ∧
    ((Manager.RestoreSession cenv sd).1.success = false →
      ∃ e, (Manager.RestoreSession cenv sd).1.message =
        "Session restore failed: " ++ e) := by
  refine ⟨?_, ?_, ?_, ?_, ?_, ?_, ?_, ?_, ?_, ?_, ?_, ?_, ?_, ?_⟩
  · cases h : (runActions penv.act (Manager.navigateActions url waitFor shot)).2 <;>
      simp [Manager.Navigate, h]
  · cases h : (runActions penv.act (ChromeAction.click selector ::
        (if shot then [ChromeAction.screenshot "body"] else []))).2 <;>
      simp [Manager.Click, h]
  · cases evalErr <;> simp [Manager.ExtractText]
  · cases h : (runActions cenv (Manager.fillFormActions fields submit)).2 <;>
      simp [Manager.FillForm, h]
  · cases h : (runActions cenv (Manager.restoreActions sd)).2 <;>
      simp [Manager.RestoreSession, h]
  · cases h : eenv.getErr url <;> simp [EnhancedManager.Navigate, h]
  · cases h : eenv.clickErr selector <;> simp [EnhancedManager.Click, h]
  · cases h : eenv.extract selector <;> simp [EnhancedManager.ExtractText, h]
  · cases h : EnhancedManager.firstTypeError eenv fields with
    | some se => simp [EnhancedManager.FillForm, h]
    | none =>
      cases submit <;>
        cases hf : EnhancedManager.enhSubmitSelectors.find?
          (fun s => (eenv.clickErr s).isNone) <;>
        simp [EnhancedManager.FillForm, h, hf]
  · cases hsc : renv.setCookiesErr <;> by_cases hurl : sd.url = "" <;>
      cases hnav : renv.navErr <;>
      simp [EnhancedManager.RestoreSession, hsc, hurl, hnav]
  · cases h : (runActions penv.act (Manager.navigateActions url waitFor shot)).2 with
    | none => simp [Manager.Navigate, h]
    | some e => exact fun _ => ⟨e, by simp [Manager.Navigate, h]⟩
  · cases h : (runActions penv.act (ChromeAction.click selector ::
        (if shot then [ChromeAction.screenshot "body"] else []))).2 with
    | none => simp [Manager.Click, h]
    | some e => exact fun _ => ⟨e, by simp [Manager.Click, h]⟩
  · cases h : (runActions cenv (Manager.fillFormActions fields submit)).2 with
    | none => simp [Manager.FillForm, h]
    | some e => exact fun _ => ⟨e, by simp [Manager.FillForm, h]⟩
  · cases h : (runActions cenv (Manager.restoreActions sd)).2 with
    | none => simp [Manager.RestoreSession, h]
    | some e => exact fun _ => ⟨e, by simp [Manager.RestoreSession, h]⟩

/-! ## Claim C5: submit-button-not-found is a soft success -/

/-- C5 counterexample: a legacy FillForm call with submit=true in which the
single field's SendKeys succeeds and no submit-control selector matches a
clickable element (every Click fails) returns success=false with a run
failure message — not the claimed soft success with the "submit button not
found" annotation. -/
theorem fillform_submit_counterexample :
    envNoSubmitControl (ChromeAction.sendKeys "#name" "Alice") = none ∧
    (∀ s ∈ Manager.submitSelectors,
      envNoSubmitControl (ChromeAction.click s) = some "no element found") ∧
    (Manager.FillForm envNoSubmitControl fieldsOne true).1.success = false ∧
    (Manager.FillForm envNoSubmitControl fieldsOne true).1.message =
      "Form filling failed: no element found" := by
  decide

/-- The enhanced field loop reports no error when every Type call
succeeds. -/
theorem firstTypeError_eq_none (eenv : EnhEnv) (fields : List (String × String))
    (h : ∀ kv ∈ fields, eenv.typeErr kv.1 kv.2 = none) :
    EnhancedManager.firstTypeError eenv fields = none := by
  induction fields with
  | nil => rfl
  | cons kv t ih =>
    obtain ⟨sel, v⟩ := kv
    have hkv : eenv.typeErr sel v = none := h (sel, v) (by simp)
    simpa [EnhancedManager.firstTypeError, hkv] using
      ih fun x hx => h x (by simp [hx])

/-- C5 (amended): the soft success with the "(submit button not found)"
annotation is the behavior of the enhanced FillForm; the legacy FillForm
instead appends a Click on the first selector of its fixed list
unconditionally and returns success=false when that click fails. -/
theorem fillform_submit_soft_success (cenv : ChromeEnv) (eenv : EnhEnv)
    (fields : List (String × String))
    (hTypeOk : ∀ kv ∈ fields, eenv.typeErr kv.1 kv.2 = none)
    (hNoClick : ∀ s ∈ EnhancedManager.enhSubmitSelectors, eenv.clickErr s ≠ none)
    (hKeysOk : ∀ kv ∈ fields, cenv (ChromeAction.sendKeys kv.1 kv.2) = none)
    (e : String)
    (hClickFail : cenv (ChromeAction.click "input[type='submit']") = some e) :
    (EnhancedManager.FillForm eenv fields true).1.success = true ∧
    (EnhancedManager.FillForm eenv fields true).1.message =
      "Enhanced form filled successfully (submit button not found)" ∧
    (Manager.FillForm cenv fields true).1.success = false := by
  have hft := firstTypeError_eq_none eenv fields hTypeOk
  have hfind : EnhancedManager.enhSubmitSelectors.find?
      (fun s => (eenv.clickErr s).isNone) = none := by
    rw [List.find?_eq_none]
    intro s hs
    simpa [Option.isNone_iff_eq_none] using hNoClick s hs
  have hkeys : ∀ a ∈ fields.map fun kv => ChromeAction.sendKeys kv.1 kv.2,
      cenv a = none := by
    intro a ha
    obtain ⟨kv, hkv, rfl⟩ := List.mem_map.mp ha
    exact hKeysOk kv hkv
  have hrun : (runActions cenv (Manager.fillFormActions fields true)).2 = some e := by
    rw [Manager.fillFormActions]
    rw [runActions_append_ok cenv _ _ hkeys]
    simp [Manager.submitSelectors, runActions, hClickFail]
  refine ⟨?_, ?_, ?_⟩
  · simp [EnhancedManager.FillForm, hft, hfind]
  · simp [EnhancedManager.FillForm, hft, hfind]
  · simp [Manager.FillForm, hrun]

/-- Witness for C5 (amended) at a one-field form and environments where all
submit-control clicks fail. -/
theorem fillform_submit_soft_success_witness :
    (EnhancedManager.FillForm enhEnvNoSubmit fieldsOne true).1.success = true ∧
    (EnhancedManager.FillForm enhEnvNoSubmit fieldsOne true).1.message =
      "Enhanced form filled successfully (submit button not found)" ∧
    (Manager.FillForm envNoSubmitControl fieldsOne true).1.success = false :=
  fillform_submit_soft_success envNoSubmitControl enhEnvNoSubmit fieldsOne
    (by intro kv _; rfl) (by intro s _; simp [enhEnvNoSubmit])
    (by intro kv _; rfl) "no element found" rfl

/-! ## Claim C6: extracted text is trimmed and in document order -/

/-- C6: a successful ExtractText returns, with a nil Go error, the trimmed
textContent of every element matching the selector in document order; on the
concrete two-h1 page the result is exactly the two trimmed headings in
order. -/
theorem extract_text_trimmed_document_order (page : Page) (selector : String) :
    (Manager.ExtractText page none selector).2 = none ∧
    (Manager.ExtractText page none selector).1.success = true ∧
    (Manager.ExtractText page none selector).1.text =
      (page.filter fun e => e.tag == selector).map (fun e => jsTrim e.textContent) ∧
    (Manager.ExtractText twoHeadingPage none "h1").1.text =
      ["First Heading", "Second Heading"] := by
  refine ⟨rfl, rfl, rfl, ?_⟩
  decide

/-! ## Claim C7: restore order, navigation versus cookie setting -/

/-- C7 counterexample: the enhanced Apply on a record with a non-empty URL
and one cookie issues the cookie bulk-set before the navigation, so the
navigate-first order the claim states is false for it. -/
theorem restore_order_counterexample :
    (EnhancedManager.RestoreSession envRestoreOk blankState sdOneCookie).2.2 =
      [RestoreEvent.setCookies [stripCookie cookieA],
       RestoreEvent.navigate "https://example.com/home"] ∧
    navEventFirst
      ((EnhancedManager.RestoreSession envRestoreOk blankState sdOneCookie).2.2) =
      false := by
  decide

/-- A block of SetCookie actions contains no navigation. -/
theorem cookieActs_not_nav (cs : List Cookie) :
    ((cs.map ChromeAction.setCookie).all fun a => !(isNavAct a)) = true := by
  simp [isNavAct]

/-- dropWhile of the navigation test leaves a SetCookie block unchanged. -/
theorem cookieActs_dropWhile (cs : List Cookie) :
    (cs.map ChromeAction.setCookie).dropWhile isNavAct = cs.map ChromeAction.setCookie := by
  cases cs with
  | nil => rfl
  | cons c t => simp [List.dropWhile_cons, isNavAct]

/-- C7 (amended): the legacy Apply navigates first — its plan is the optional
navigation followed by the per-cookie sets, executed in plan order — while
the enhanced Apply always issues the cookie bulk-set first and navigates
only afterwards (its trace is the SetCookies call alone, or the SetCookies
call followed by the navigation). -/
theorem restore_navigation_order (env : ChromeEnv) (renv : EnhRestoreEnv)
    (st : BrowserState) (sd : SessionData) :
    navFirst (Manager.restoreActions sd) = true ∧
    (runActions env (Manager.restoreActions sd)).1 <+: Manager.restoreActions sd ∧
    ((EnhancedManager.RestoreSession renv st sd).2.2 =
        [RestoreEvent.setCookies (EnhancedManager.restoreHttpCookies sd)] ∨
      (EnhancedManager.RestoreSession renv st sd).2.2 =
        [RestoreEvent.setCookies (EnhancedManager.restoreHttpCookies sd),
         RestoreEvent.navigate sd.url]) := by
  refine ⟨?_, runActions_attempted_isPrefix env _, ?_⟩
  · by_cases hurl : sd.url = ""
    · simp [navFirst, Manager.restoreActions, hurl, cookieActs_dropWhile,
        cookieActs_not_nav]
    · simp [navFirst, Manager.restoreActions, hurl, isNavAct, List.dropWhile_cons,
        cookieActs_dropWhile, cookieActs_not_nav]
  · cases hsc : renv.setCookiesErr with
    | some e => left; simp [EnhancedManager.RestoreSession, hsc]
    | none =>
      by_cases hurl : sd.url = ""
      · left; simp [EnhancedManager.RestoreSession, hsc, hurl]
      · cases hnav : renv.navErr with
        | some e => right; simp [EnhancedManager.RestoreSession, hsc, hurl, hnav]
        | none => right; simp [EnhancedManager.RestoreSession, hsc, hurl, hnav]

/-! ## Claim C9: backend selection at initialization and call routing -/

/-- C9 counterexample: with the rich init failing and the legacy init
succeeding, Start reports the degraded state, yet a chrome_navigate call
still executes on the rich backend alone — the legacy backend handles no
part of it, refuting the claimed degradation of call handling. -/
theorem backend_selection_counterexample :
    EnhancedServer.start { storageOk := true, richOk := false, legacyOk := true } =
      Except.ok { richInited := false, legacyInited := true } ∧
    ((handleEnhancedNavigate { richInited := false, legacyInited := true }
        enhEnvAllOk (Except.error "unavailable") reqExample).2.map Prod.fst) =
      [Backend.rich] ∧
    Backend.legacy ∉
      ((handleEnhancedNavigate { richInited := false, legacyInited := true }
        enhEnvAllOk (Except.error "unavailable") reqExample).2.map Prod.fst) := by
  refine ⟨rfl, rfl, by decide⟩

/-- C9 (amended): the init-time decision only determines which backends get
initialized — when the rich init fails and the legacy one succeeds, startup
succeeds in the degraded state — but every chrome_navigate call is handled
by the rich backend alone whatever that state, with at most one Navigate
invocation and no second backend involved. -/
theorem backend_selection_once (sstate : ServerState) (env : EnhEnv)
    (perf : Except String String) (req : NavRequest) (cfg : StartCfg) :
    (((handleEnhancedNavigate sstate env perf req).2.map Prod.fst).all
        fun b => b == Backend.rich) = true ∧
    ((handleEnhancedNavigate sstate env perf req).2.countP
        fun c => c.2 == "Navigate") ≤ 1 ∧
    (cfg.storageOk = true → cfg.richOk = false → cfg.legacyOk = true →
      EnhancedServer.start cfg =
        Except.ok { richInited := false, legacyInited := true }) ∧
    (cfg.storageOk = true → cfg.richOk = true →
      EnhancedServer.start cfg =
        Except.ok { richInited := true, legacyInited := false }) := by
  obtain ⟨u, w, s, tp⟩ := req
  refine ⟨?_, ?_, ?_, ?_⟩
  · cases tp <;> by_cases hu : u = "" <;> cases perf <;>
      simp [handleEnhancedNavigate, hu]
  · cases tp <;> by_cases hu : u = "" <;> cases perf <;>
      simp [handleEnhancedNavigate, hu, List.countP_cons]
  · intro h1 h2 h3
    simp [EnhancedServer.start, h1, h2, h3]
  · intro h1 h2
    simp [EnhancedServer.start, h1, h2]

/-! ## Claim C10: non-string field values are silently dropped -/

/-- Filtering keeps nothing when no value is a string. -/
theorem stringFields_eq_nil (m : List (String × JsonValue))
    (h : ∀ kv ∈ m, kv.2.asString = none) : stringFields m = [] := by
  induction m with
  | nil => rfl
  | cons kv t ih =>
    have hkv := h kv (by simp)
    simpa [stringFields, List.filterMap_cons, hkv] using
      ih fun x hx => h x (by simp [hx])

/-- C10: a fill_form request whose fields map is non-empty but has only
non-string values passes the required-parameter check in both handlers, yet
every entry is silently dropped before the browser FillForm: it runs with
zero fields (an empty action plan) and still reports success. -/
theorem fillform_drops_nonstring_fields (cenv : ChromeEnv) (eenv : EnhEnv)
    (m : List (String × JsonValue)) (hne : m ≠ [])
    (hns : ∀ kv ∈ m, kv.2.asString = none) :
    stringFields m = [] ∧
    handleChromeFillForm cenv m false =
      FillFormOutcome.invoked [] (Manager.FillForm cenv [] false).1 ∧
    (Manager.FillForm cenv [] false).1.success = true ∧
    Manager.fillFormActions [] false = [] ∧
    handleEnhancedFillForm eenv m false true =
      FillFormOutcome.invoked [] (EnhancedManager.FillForm eenv [] false).1 ∧
    (EnhancedManager.FillForm eenv [] false).1.success = true := by
  have hsf := stringFields_eq_nil m hns
  have hlen : ¬ m.length = 0 := by simpa using hne
  refine ⟨hsf, ?_, rfl, rfl, ?_, rfl⟩
  · simp [handleChromeFillForm, hlen, hsf]
  · simp [handleEnhancedFillForm, hlen, hsf]

/-- Witness for C10 at a one-entry map holding a number value. -/
theorem fillform_drops_nonstring_fields_witness :
    stringFields nonStringFieldsMap = [] ∧
    handleChromeFillForm envAllOk nonStringFieldsMap false =
      FillFormOutcome.invoked [] (Manager.FillForm envAllOk [] false).1 ∧
    (Manager.FillForm envAllOk [] false).1.success = true ∧
    Manager.fillFormActions [] false = [] ∧
    handleEnhancedFillForm enhEnvAllOk nonStringFieldsMap false true =
      FillFormOutcome.invoked [] (EnhancedManager.FillForm enhEnvAllOk [] false).1 ∧
    (EnhancedManager.FillForm enhEnvAllOk [] false).1.success = true :=
  fillform_drops_nonstring_fields envAllOk enhEnvAllOk nonStringFieldsMap
    (by decide) (by decide)

/-! ## Claim C8: capture-then-apply round trip -/

/-- C8 counterexample: capturing `secureState` and immediately applying the
captured record back onto it leaves a cookie whose secure flag (and domain
and http-only flag) differ from what the live session held at capture time —
and no cookie expired in between, the model having no expiry — refuting the
stated round-trip equality over all six cookie fields. -/
theorem capture_apply_counterexample :
    (EnhancedManager.RestoreSession envRestoreOk secureState
        (EnhancedManager.GetSessionData secureState)).2.1.cookies ≠
      secureState.cookies ∧
    ((EnhancedManager.RestoreSession envRestoreOk secureState
        (EnhancedManager.GetSessionData secureState)).2.1.cookies.map
          Cookie.secure) = [false] ∧
    secureState.cookies.map Cookie.secure = [true] := by
  decide

/-- Replacing by name rewrites no entry whose name differs. -/
theorem map_replace_of_no_match (B : List Cookie) (c : Cookie)
    (hB : ∀ b ∈ B, (b.name == c.name) = false) :
    (B.map fun j => if j.name == c.name then c else j) = B := by
  induction B with
  | nil => rfl
  | cons b t ih =>
    have hb := hB b (by simp)
    have hbne : ¬ ((b.name == c.name) = true) := by simp [hb]
    rw [List.map_cons, if_neg hbne, ih fun x hx => hB x (by simp [hx])]

/-- Setting a cookie whose name occurs exactly once replaces that entry in
place. -/
theorem setCookieInJar_replace (A B : List Cookie) (j c : Cookie)
    (hname : c.name = j.name)
    (hA : ∀ a ∈ A, (a.name == j.name) = false)
    (hB : ∀ b ∈ B, (b.name == j.name) = false) :
    setCookieInJar (A ++ j :: B) c = A ++ c :: B := by
  have hj : (j.name == c.name) = true := by simp [hname]
  have hany : ((A ++ j :: B).any fun x => x.name == c.name) = true :=
    List.any_eq_true.mpr ⟨j, by simp, hj⟩
  rw [setCookieInJar, if_pos hany, List.map_append, List.map_cons, if_pos hj]
  rw [map_replace_of_no_match A c fun a ha => by simpa [hname] using hA a ha]
  rw [map_replace_of_no_match B c fun b hb => by simpa [hname] using hB b hb]

/-- Folding the stripped image of a block over a jar that starts with the
already-stripped part rewrites the block in place, provided all names are
pairwise distinct. -/
theorem foldl_set_strip (post : List Cookie) (pre : List Cookie)
    (h : (pre ++ post).Pairwise fun a b => a.name ≠ b.name) :
    (post.map stripCookie).foldl setCookieInJar (pre.map stripCookie ++ post) =
      (pre ++ post).map stripCookie := by
  induction post generalizing pre with
  | nil => simp
  | cons j rest ih =>
    have hsplit := List.pairwise_append.mp h
    have hstep : setCookieInJar (pre.map stripCookie ++ j :: rest) (stripCookie j) =
        pre.map stripCookie ++ stripCookie j :: rest := by
      apply setCookieInJar_replace
      · rfl
      · intro a ha
        obtain ⟨x, hx, rfl⟩ := List.mem_map.mp ha
        have hne : x.name ≠ j.name := hsplit.2.2 x hx j (by simp)
        simpa [stripCookie] using hne
      · intro b hb
        have hne : j.name ≠ b.name := (List.pairwise_cons.mp hsplit.2.1).1 b hb
        simpa using hne.symm
    rw [List.map_cons, List.foldl_cons, hstep]
    have hassoc : pre.map stripCookie ++ stripCookie j :: rest =
        (pre ++ [j]).map stripCookie ++ rest := by
      simp
    have h2 : ((pre ++ [j]) ++ rest).Pairwise fun a b => a.name ≠ b.name := by
      have : (pre ++ [j]) ++ rest = pre ++ j :: rest := by simp
      rw [this]
      exact h
    rw [hassoc, ih (pre ++ [j]) h2]
    simp

/-- Stripping is idempotent. -/
theorem strip_comp_strip : stripCookie ∘ stripCookie = stripCookie :=
  funext fun _ => rfl

/-- Stripping is idempotent on a cookie list. -/
theorem map_strip_strip (cs : List Cookie) :
    (cs.map stripCookie).map stripCookie = cs.map stripCookie := by
  rw [List.map_map, strip_comp_strip]

/-- C8 (amended): capture-then-apply through the enhanced manager preserves
the URL and each cookie's name, value and path, but resets domain to empty
and the secure and http-only flags to false: the jar after Apply is the
stripped image of the jar at capture time (stated for jars with pairwise
distinct cookie names). -/
theorem capture_apply_round_trip (st : BrowserState) (renv : EnhRestoreEnv)
    (hnames : st.cookies.Pairwise fun a b => a.name ≠ b.name)
    (hset : renv.setCookiesErr = none) (hnav : renv.navErr = none) :
    ((EnhancedManager.RestoreSession renv st
        (EnhancedManager.GetSessionData st)).2.1).url = st.url ∧
    ((EnhancedManager.RestoreSession renv st
        (EnhancedManager.GetSessionData st)).2.1).cookies =
      st.cookies.map stripCookie := by
  have hfold : clientSetCookies st (st.cookies.map stripCookie) =
      { st with cookies := st.cookies.map stripCookie } := by
    have := foldl_set_strip st.cookies [] (by simpa using hnames)
    simp only [List.map_nil, List.nil_append] at this
    simp [clientSetCookies, this]
  by_cases hurl : st.url = ""
  · simp [EnhancedManager.RestoreSession, hset, EnhancedManager.restoreHttpCookies,
      EnhancedManager.GetSessionData, clientGetCookies, map_strip_strip,
      strip_comp_strip, hurl, hfold]
  · simp [EnhancedManager.RestoreSession, hset, hnav, EnhancedManager.restoreHttpCookies,
      EnhancedManager.GetSessionData, clientGetCookies, map_strip_strip,
      strip_comp_strip, hurl, hfold]

/-- Witness for C8 (amended) at the one-cookie secure state: the URL comes
back and the jar is the stripped image of the original. -/
theorem capture_apply_round_trip_witness :
    ((EnhancedManager.RestoreSession envRestoreOk secureState
        (EnhancedManager.GetSessionData secureState)).2.1).url = secureState.url ∧
    ((EnhancedManager.RestoreSession envRestoreOk secureState
        (EnhancedManager.GetSessionData secureState)).2.1).cookies =
      secureState.cookies.map stripCookie :=
  capture_apply_round_trip secureState envRestoreOk (by simp [secureState]) rfl rfl

end ChromAuto
